import Mathlib

/-!
Verification of the Qualtrics audit-log connector
(`package/bin/qualtrics_audit_helper.py`) against its specification.

The Python source is shallowly embedded below: pure helpers become Lean
functions, the HTTP layer becomes an oracle `String → HttpResp`, the
unbounded `while url:` pagination loop becomes a fuel-indexed loop
(`none` models a run that never terminates), exceptions become
`Option`/`Except` values, and `datetime.utcnow()` becomes a stream of
clock samples `Nat → DateTime` consumed in program order.
-/

set_option maxRecDepth 100000

namespace QualtricsAudit

/-- Naive `datetime.datetime` value: calendar/clock fields only, no tzinfo,
as produced by `datetime.utcnow()` in the source. -/
structure DateTime where
  year : Nat
  month : Nat
  day : Nat
  hour : Nat
  minute : Nat
  second : Nat
  microsecond : Nat
deriving DecidableEq

/-- Modelled from the Python stdlib: the range invariants the `datetime`
constructor enforces (`MINYEAR ≤ year ≤ MAXYEAR`, `1 ≤ month ≤ 12`, ...).
Day-of-month is only bounded by 31, not by the month's true length; every
datetime the source can construct satisfies this predicate. -/
def ValidDT (d : DateTime) : Bool :=
  decide (1 ≤ d.year) && decide (d.year ≤ 9999) &&
  decide (1 ≤ d.month) && decide (d.month ≤ 12) &&
  decide (1 ≤ d.day) && decide (d.day ≤ 31) &&
  decide (d.hour ≤ 23) && decide (d.minute ≤ 59) &&
  decide (d.second ≤ 59) && decide (d.microsecond ≤ 999999)

/-- The decimal digit character for `d < 10`. -/
def decChar (d : Nat) : Char := Char.ofNat (48 + d)

/-- Zero-padded `w`-character decimal rendering of `n` (for `n < 10^w`),
modelling Python's `%04d`-style fixed-width formatting. -/
def padChars : Nat → Nat → List Char
  | 0, _ => []
  | w + 1, n => padChars w (n / 10) ++ [decChar (n % 10)]

theorem padChars_length (w n : Nat) : (padChars w n).length = w := by
  induction w generalizing n with
  | zero => rfl
  | succ w ih => simp [padChars, ih]

theorem decChar_isDigit : ∀ d, d < 10 → (decChar d).isDigit = true := by decide

theorem padChars_all_digits (w n : Nat) : ∀ c ∈ padChars w n, c.isDigit = true := by
  induction w generalizing n with
  | zero => intro c hc; simp [padChars] at hc
  | succ w ih =>
    intro c hc
    simp only [padChars, List.mem_append, List.mem_singleton] at hc
    rcases hc with hc | hc
    · exact ih (n / 10) c hc
    · subst hc; exact decChar_isDigit (n % 10) (Nat.mod_lt n (by decide))

/-- Numeric value of a big-endian string of decimal digit characters. -/
def digitsVal (ds : List Char) : Nat :=
  ds.foldl (fun a c => a * 10 + (c.toNat - 48)) 0

theorem decChar_toNat : ∀ d, d < 10 → (decChar d).toNat - 48 = d := by decide

theorem digitsVal_padChars (w : Nat) : ∀ n, n < 10 ^ w → digitsVal (padChars w n) = n := by
  induction w with
  | zero =>
    intro n hn
    interval_cases n
    rfl
  | succ w ih =>
    intro n hn
    have hdiv : n / 10 < 10 ^ w := by
      apply Nat.div_lt_of_lt_mul
      calc n < 10 ^ (w + 1) := hn
        _ = 10 ^ w * 10 := by rw [pow_succ]
        _ = 10 * 10 ^ w := by ring
    unfold digitsVal at *
    rw [padChars, List.foldl_append]
    simp only [List.foldl_cons, List.foldl_nil]
    rw [ih (n / 10) hdiv, decChar_toNat (n % 10) (Nat.mod_lt n (by decide))]
    omega

/-- Reads one decimal digit character. -/
def readDigit (c : Char) : Option Nat :=
  if c.isDigit then some (c.toNat - 48) else none

theorem readDigit_decChar : ∀ d, d < 10 → readDigit (decChar d) = some d := by decide

/-- Reads exactly `w` decimal digits, most significant first, onto the
accumulator `acc`; fails on a non-digit or on end of input. -/
def readFixedAux : Nat → Nat → List Char → Option (Nat × List Char)
  | 0, acc, cs => some (acc, cs)
  | _ + 1, _, [] => none
  | w + 1, acc, c :: cs =>
    match readDigit c with
    | some d => readFixedAux w (acc * 10 + d) cs
    | none => none

theorem readFixedAux_append {w acc m : Nat} {xs : List Char} (v : Nat) (ys : List Char)
    (h : readFixedAux w acc xs = some (m, [])) :
    readFixedAux (w + v) acc (xs ++ ys) = readFixedAux v m ys := by
  induction w generalizing acc xs with
  | zero =>
    simp only [readFixedAux, Option.some.injEq, Prod.mk.injEq] at h
    obtain ⟨h1, h2⟩ := h
    subst h1; subst h2
    simp [Nat.zero_add]
  | succ w ih =>
    cases xs with
    | nil => simp [readFixedAux] at h
    | cons c cs =>
      simp only [readFixedAux] at h
      rcases hd : readDigit c with _ | d
      · rw [hd] at h; exact absurd h (by simp)
      · rw [hd] at h
        have : (w + 1) + v = (w + v) + 1 := by omega
        rw [this, List.cons_append, readFixedAux, hd]
        exact ih h

theorem readFixedAux_padChars (w : Nat) :
    ∀ n acc rest, n < 10 ^ w →
      readFixedAux w acc (padChars w n ++ rest) = some (acc * 10 ^ w + n, rest) := by
  induction w with
  | zero =>
    intro n acc rest hn
    interval_cases n
    simp [padChars, readFixedAux]
  | succ w ih =>
    intro n acc rest hn
    have hdiv : n / 10 < 10 ^ w := by
      apply Nat.div_lt_of_lt_mul
      calc n < 10 ^ (w + 1) := hn
        _ = 10 ^ w * 10 := by rw [pow_succ]
        _ = 10 * 10 ^ w := by ring
    have hbase : readFixedAux w acc (padChars w (n / 10)) = some (acc * 10 ^ w + n / 10, []) := by
      have := ih (n / 10) acc [] hdiv
      rwa [List.append_nil] at this
    have hsplit : padChars (w + 1) n ++ rest
        = padChars w (n / 10) ++ ([decChar (n % 10)] ++ rest) := by
      rw [padChars, List.append_assoc]
    rw [hsplit, readFixedAux_append 1 _ hbase]
    have hm : n % 10 < 10 := Nat.mod_lt n (by decide)
    simp only [readFixedAux, readDigit_decChar (n % 10) hm]
    have harith : (acc * 10 ^ w + n / 10) * 10 + n % 10 = acc * 10 ^ (w + 1) + n := by
      rw [pow_succ, ← Nat.mul_assoc]
      omega
    rw [harith]
    rfl

/-- Character list of `datetime.isoformat()` on a naive datetime:
`YYYY-MM-DDTHH:MM:SS` followed by `.ffffff` only when the microsecond
field is nonzero (CPython `timespec='auto'`). -/
def isoChars (d : DateTime) : List Char :=
  padChars 4 d.year ++ ('-' :: (padChars 2 d.month ++ ('-' :: (padChars 2 d.day ++
  ('T' :: (padChars 2 d.hour ++ (':' :: (padChars 2 d.minute ++ (':' :: (padChars 2 d.second ++
  (if d.microsecond = 0 then [] else '.' :: padChars 6 d.microsecond)))))))))))

/-- Modelled from the Python stdlib: `datetime.isoformat()` on a naive
datetime, as used by `save_checkpoint` (source line 73). -/
def datetime_isoformat (d : DateTime) : String := String.mk (isoChars d)

/-- Character list of `strftime("%Y-%m-%dT%H:%M:%S.%fZ")`: unlike
`isoformat`, `%f` always prints exactly six microsecond digits, and the
format string appends a literal `Z`. -/
def strftimeZChars (d : DateTime) : List Char :=
  padChars 4 d.year ++ ('-' :: (padChars 2 d.month ++ ('-' :: (padChars 2 d.day ++
  ('T' :: (padChars 2 d.hour ++ (':' :: (padChars 2 d.minute ++ (':' :: (padChars 2 d.second ++
  ('.' :: (padChars 6 d.microsecond ++ ['Z']))))))))))))

/-- Modelled from the Python stdlib: the timestamp format
`start_date.strftime("%Y-%m-%dT%H:%M:%S.%fZ")` used for the `startDate`
and `endDate` query parameters (source lines 92-93). -/
def strftimeZ (d : DateTime) : String := String.mk (strftimeZChars d)

/-- Expects the exact character `c` at the head of the input. -/
def expectChar (c : Char) : List Char → Option (List Char)
  | x :: xs => if x = c then some xs else none
  | [] => none

/-- Expects the date/time separator (`T` or space). -/
def expectSep : List Char → Option (List Char)
  | x :: xs => if x = 'T' ∨ x = ' ' then some xs else none
  | [] => none

/-- Reads an optional fractional-second part: a dot followed by one to six
digits, scaled to microseconds; absent fraction yields zero microseconds. -/
def readFrac : List Char → Option (Nat × List Char)
  | '.' :: rest =>
    let ds := rest.takeWhile Char.isDigit
    if 1 ≤ ds.length ∧ ds.length ≤ 6 then
      some (digitsVal ds * 10 ^ (6 - ds.length), rest.drop ds.length)
    else none
  | cs => some (0, cs)

/-- Reads an optional UTC-offset suffix `±HH:MM`, returned in minutes. -/
def readOffset : List Char → Option (Option Int × List Char)
  | [] => some (none, [])
  | c :: rest =>
    if c = '+' ∨ c = '-' then
      match readFixedAux 2 0 rest with
      | none => none
      | some (oh, cs1) =>
        match expectChar ':' cs1 with
        | none => none
        | some cs2 =>
          match readFixedAux 2 0 cs2 with
          | none => none
          | some (om, cs3) =>
            if oh ≤ 23 ∧ om ≤ 59 then
              some (some (if c = '-' then -((oh * 60 + om : Nat) : Int)
                          else ((oh * 60 + om : Nat) : Int)), cs3)
            else none
    else some (none, c :: rest)

/-- Range/end-of-input check performed after all components are read. -/
def finishParse (dt : DateTime) (off : Option Int) (cs : List Char) :
    Option (DateTime × Option Int) :=
  if cs = [] then if ValidDT dt then some (dt, off) else none else none

/-- Core of the ISO-8601 parse over a character list. -/
def fromisoChars (cs : List Char) : Option (DateTime × Option Int) :=
  (readFixedAux 4 0 cs).bind fun p1 =>
  (expectChar '-' p1.2).bind fun cs1 =>
  (readFixedAux 2 0 cs1).bind fun p2 =>
  (expectChar '-' p2.2).bind fun cs2 =>
  (readFixedAux 2 0 cs2).bind fun p3 =>
  (expectSep p3.2).bind fun cs3 =>
  (readFixedAux 2 0 cs3).bind fun p4 =>
  (expectChar ':' p4.2).bind fun cs4 =>
  (readFixedAux 2 0 cs4).bind fun p5 =>
  (expectChar ':' p5.2).bind fun cs5 =>
  (readFixedAux 2 0 cs5).bind fun p6 =>
  (readFrac p6.2).bind fun p7 =>
  (readOffset p7.2).bind fun p8 =>
  finishParse ⟨p1.1, p2.1, p3.1, p4.1, p5.1, p6.1, p7.1⟩ p8.1 p8.2

/-- Modelled from the Python stdlib: `datetime.fromisoformat`, restricted
to the fixed-width forms relevant to this connector — the strings produced
by `isoformat`/the `%Y-%m-%dT%H:%M:%S.%fZ` strftime format, optionally
carrying a `±HH:MM` UTC offset (as produced by `.replace("Z", "+00:00")`
in `stream_events`). Out-of-range components are rejected like the
`datetime` constructor would (`ValueError` becomes `none`). -/
def datetime_fromisoformat (s : String) : Option (DateTime × Option Int) :=
  fromisoChars s.data

theorem takeWhile_of_all {p : Char → Bool} :
    ∀ xs : List Char, (∀ x ∈ xs, p x = true) → xs.takeWhile p = xs := by
  intro xs h
  induction xs with
  | nil => rfl
  | cons x xs ih =>
    have hx := h x (List.mem_cons_self x xs)
    have hrest := ih (fun a ha => h a (List.mem_cons_of_mem x ha))
    simp [List.takeWhile_cons, hx, hrest]

theorem readFixedAux_padChars0 (w n : Nat) (rest : List Char) (h : n < 10 ^ w) :
    readFixedAux w 0 (padChars w n ++ rest) = some (n, rest) := by
  have := readFixedAux_padChars w n 0 rest h
  simpa using this

theorem expectChar_cons_self (c : Char) (xs : List Char) :
    expectChar c (c :: xs) = some xs := by
  simp [expectChar]

theorem expectSep_T (xs : List Char) : expectSep ('T' :: xs) = some xs := by
  simp [expectSep]

theorem readFrac_nil : readFrac [] = some (0, []) := rfl

theorem readFrac_pad6 (us : Nat) (hus : us < 10 ^ 6) :
    readFrac ('.' :: padChars 6 us) = some (us, []) := by
  show (if 1 ≤ (List.takeWhile Char.isDigit (padChars 6 us)).length ∧
        (List.takeWhile Char.isDigit (padChars 6 us)).length ≤ 6 then
      some (digitsVal (List.takeWhile Char.isDigit (padChars 6 us)) *
        10 ^ (6 - (List.takeWhile Char.isDigit (padChars 6 us)).length),
        (padChars 6 us).drop (List.takeWhile Char.isDigit (padChars 6 us)).length)
    else none) = some (us, [])
  rw [takeWhile_of_all _ (padChars_all_digits 6 us), padChars_length]
  rw [if_pos (by omega), digitsVal_padChars 6 us hus]
  have hdrop : (padChars 6 us).drop 6 = [] := by
    have := List.drop_length (padChars 6 us)
    rwa [padChars_length] at this
  rw [hdrop]
  norm_num

theorem readOffset_nil : readOffset [] = some (none, []) := rfl

/-- `isoformat` followed by `fromisoformat` is the identity on valid naive
datetimes: the serialisation round trip behind the checkpoint store. -/
theorem fromisoformat_isoformat (d : DateTime) (hv : ValidDT d = true) :
    datetime_fromisoformat (datetime_isoformat d) = some (d, none) := by
  obtain ⟨y, mo, dy, h, mi, sec, us⟩ := d
  simp only [ValidDT, Bool.and_eq_true, decide_eq_true_eq] at hv
  obtain ⟨⟨⟨⟨⟨⟨⟨⟨⟨hy1, hy2⟩, hmo1⟩, hmo2⟩, hdy1⟩, hdy2⟩, hh⟩, hmi⟩, hsec⟩, hus⟩ := hv
  have hy : y < 10 ^ 4 := by omega
  have hmo : mo < 10 ^ 2 := by omega
  have hdy : dy < 10 ^ 2 := by omega
  have hh2 : h < 10 ^ 2 := by omega
  have hmi2 : mi < 10 ^ 2 := by omega
  have hsec2 : sec < 10 ^ 2 := by omega
  have hus2 : us < 10 ^ 6 := by omega
  have hvb : ValidDT ⟨y, mo, dy, h, mi, sec, us⟩ = true := by
    simp only [ValidDT, Bool.and_eq_true, decide_eq_true_eq]
    refine ⟨⟨⟨⟨⟨⟨⟨⟨⟨hy1, hy2⟩, hmo1⟩, hmo2⟩, hdy1⟩, hdy2⟩, hh⟩, hmi⟩, hsec⟩, hus⟩
  show fromisoChars (isoChars ⟨y, mo, dy, h, mi, sec, us⟩) = some (⟨y, mo, dy, h, mi, sec, us⟩, none)
  unfold isoChars fromisoChars
  rw [readFixedAux_padChars0 4 y _ hy]
  rw [Option.some_bind]
  dsimp only
  rw [expectChar_cons_self, Option.some_bind]
  rw [readFixedAux_padChars0 2 mo _ hmo, Option.some_bind]
  dsimp only
  rw [expectChar_cons_self, Option.some_bind]
  rw [readFixedAux_padChars0 2 dy _ hdy, Option.some_bind]
  dsimp only
  rw [expectSep_T, Option.some_bind]
  rw [readFixedAux_padChars0 2 h _ hh2, Option.some_bind]
  dsimp only
  rw [expectChar_cons_self, Option.some_bind]
  rw [readFixedAux_padChars0 2 mi _ hmi2, Option.some_bind]
  dsimp only
  rw [expectChar_cons_self, Option.some_bind]
  by_cases hzero : us = 0
  · rw [if_pos hzero]
    rw [List.append_nil]
    have hsecfix : readFixedAux 2 0 (padChars 2 sec) = some (sec, []) := by
      have := readFixedAux_padChars0 2 sec [] hsec2
      rwa [List.append_nil] at this
    rw [hsecfix, Option.some_bind]
    dsimp only
    rw [readFrac_nil, Option.some_bind]
    dsimp only
    rw [readOffset_nil, Option.some_bind]
    dsimp only
    unfold finishParse
    rw [if_pos rfl]
    subst hzero
    rw [if_pos hvb]
  · rw [if_neg hzero]
    rw [readFixedAux_padChars0 2 sec _ hsec2, Option.some_bind]
    dsimp only
    rw [readFrac_pad6 us hus2, Option.some_bind]
    dsimp only
    rw [readOffset_nil, Option.some_bind]
    dsimp only
    unfold finishParse
    rw [if_pos rfl, if_pos hvb]

/-- Whether `p` is a prefix of the second list. -/
def isPrefixChars : List Char → List Char → Bool
  | [], _ => true
  | _ :: _, [] => false
  | p :: ps, c :: cs => p == c && isPrefixChars ps cs

/-- Fuel-indexed worker for `pySplit`; the fuel is the input length, which
bounds the iteration count. -/
def pySplitAux (sep : List Char) : Nat → List Char → List Char → List (List Char)
  | _, [], cur => [cur.reverse]
  | 0, cs, cur => [cur.reverse ++ cs]
  | fuel + 1, c :: cs, cur =>
    if isPrefixChars sep (c :: cs) then
      cur.reverse :: pySplitAux sep fuel (List.drop (sep.length - 1) cs) []
    else pySplitAux sep fuel cs (c :: cur)

/-- Modelled from the Python stdlib: `s.split(sep)` for a nonempty
separator — split at each leftmost non-overlapping occurrence, keeping
empty parts. -/
def pySplit (s sep : String) : List String :=
  (pySplitAux sep.data s.data.length s.data []).map String.mk

/-- ASCII whitespace stripped by `str.strip()`. -/
def isSpaceChar (c : Char) : Bool :=
  c == ' ' || c == '\t' || c == '\n' || c == '\r' || c == '\x0b' || c == '\x0c'

/-- Modelled from the Python stdlib: `s.strip()` — remove leading and
trailing whitespace. -/
def pyStrip (s : String) : String :=
  String.mk (((s.data.dropWhile isSpaceChar).reverse.dropWhile isSpaceChar).reverse)

/-- Fuel-indexed worker for `pyReplace`. -/
def pyReplaceAux (old new : List Char) : Nat → List Char → List Char
  | _, [] => []
  | 0, cs => cs
  | fuel + 1, c :: cs =>
    if isPrefixChars old (c :: cs) then
      new ++ pyReplaceAux old new fuel (List.drop (old.length - 1) cs)
    else c :: pyReplaceAux old new fuel cs

/-- Modelled from the Python stdlib: `s.replace(old, new)` for a nonempty
`old` — replace every leftmost non-overlapping occurrence. -/
def pyReplace (s old new : String) : String :=
  String.mk (pyReplaceAux old.data new.data s.data.length s.data)

/-- Whether the string contains the character. -/
def containsChar (s : String) (c : Char) : Bool := s.data.contains c

/-- Uppercase hexadecimal digit for `n < 16`. -/
def hexChar (n : Nat) : Char :=
  if n < 10 then Char.ofNat (48 + n) else Char.ofNat (55 + n)

/-- Modelled from the Python stdlib: `urllib.parse.quote_plus` on the ASCII
strings this connector builds (alphanumerics and `_.-~` kept, space becomes
`+`, anything else percent-encoded as `%XX` with uppercase hex). -/
def quotePlusChar (c : Char) : List Char :=
  if c.isAlphanum ∨ c = '_' ∨ c = '.' ∨ c = '-' ∨ c = '~' then [c]
  else if c = ' ' then ['+']
  else '%' :: [hexChar (c.toNat / 16 % 16), hexChar (c.toNat % 16)]

def quotePlus (s : String) : String :=
  String.mk (s.data.flatMap quotePlusChar)

/-- Modelled from the Python stdlib: `urllib.parse.urlencode` on an ordered
dict of string values — `k1=v1&k2=v2&...` with `quote_plus` applied to keys
and values. -/
def urlencode (ps : List (String × String)) : String :=
  String.intercalate "&" (ps.map fun p => quotePlus p.1 ++ "=" ++ quotePlus p.2)

/-- Modelled from the `requests` library: `Session.get(url, params=...)`
merges the `params` dict into the URL — appended with `&` when the URL
already has a query string, with `?` otherwise (`PreparedRequest.prepare_url`).
The source passes `params` on every call, including cursor follow-ups. -/
def mergeParams (url : String) (enc : String) : String :=
  if enc = "" then url
  else if containsChar url '?' then url ++ "&" ++ enc
  else url ++ "?" ++ enc

/-- A JSON value, as produced by `resp.json()` for a record's `descriptor`
payload. -/
inductive Json where
  | null
  | bool (b : Bool)
  | num (n : Int)
  | str (s : String)
  | arr (elems : List Json)
  | obj (fields : List (String × Json))

/-- Lowercase hexadecimal digit for `n < 16`. -/
def hexCharLower (n : Nat) : Char :=
  if n < 10 then Char.ofNat (48 + n) else Char.ofNat (87 + n)

/-- JSON string escaping (`"`, `\`, common controls, `\u00XX` for other
ASCII controls; `ensure_ascii=False` keeps everything else verbatim). -/
def jsonEscapeChar (c : Char) : List Char :=
  if c = '"' then ['\\', '"']
  else if c = '\\' then ['\\', '\\']
  else if c = '\n' then ['\\', 'n']
  else if c = '\t' then ['\\', 't']
  else if c = '\r' then ['\\', 'r']
  else if c.toNat < 32 then
    '\\' :: 'u' :: '0' :: '0' :: [hexCharLower (c.toNat / 16), hexCharLower (c.toNat % 16)]
  else [c]

def jsonQuote (s : String) : String :=
  String.mk ('"' :: (s.data.flatMap jsonEscapeChar ++ ['"']))

mutual

/-- Modelled from the Python stdlib: `json.dumps(v, ensure_ascii=False)`
with the default `", "`/`": "` separators. -/
def jsonDumps : Json → String
  | .null => "null"
  | .bool true => "true"
  | .bool false => "false"
  | .num n => toString n
  | .str s => jsonQuote s
  | .arr xs => "[" ++ (String.intercalate ", " (jsonDumpsList xs) ++ "]")
  | .obj fs => "\x7b" ++ (String.intercalate ", " (jsonDumpsFields fs) ++ "\x7d")

def jsonDumpsList : List Json → List String
  | [] => []
  | x :: xs => jsonDumps x :: jsonDumpsList xs

def jsonDumpsFields : List (String × Json) → List String
  | [] => []
  | f :: fs => (jsonQuote f.1 ++ (": " ++ jsonDumps f.2)) :: jsonDumpsFields fs

end

/-- One audit record of the API response: the fields `stream_events` reads
(`line["timestamp"]` and `line["descriptor"]`). -/
structure Rec where
  timestamp : String
  descriptor : Json

/-- The `result` envelope of one API response page:
`{"result": {"elements": [...], "nextPage": <url-or-absent>}}`. -/
structure ApiResult where
  elements : List Rec
  nextPage : Option String

/-- Outcome of one `session.get` call: a response with a status code and
parsed JSON body, or an exception raised by the HTTP client. -/
inductive HttpResp where
  | resp (status : Nat) (body : ApiResult)
  | raise

/-- Result of one `get_data_from_api_for_activity_type` call: the URLs
requested (after `requests` merges `params` in), the records returned or
the exception propagated, and the non-success status logged via
`logger.error`, if any. -/
structure FetchOut where
  reqs : List String
  out : Except Unit (List Rec)
  errStatus : Option Nat

/-- The `while url:` pagination loop of
`get_data_from_api_for_activity_type` (source lines 103-123), fuel-indexed:
`none` models a loop that consumes more pages than the given fuel (the
source has no page bound). On status 200 the page's elements are appended
and the cursor followed; otherwise the loop logs the status and breaks,
returning what was accumulated; a raised exception propagates. -/
def fetchLoop (http : String → HttpResp) (enc : String) :
    Nat → Option String → List Rec → List String → Option FetchOut
  | _, none, acc, reqs => some ⟨reqs, .ok acc, none⟩
  | fuel + 1, some u, acc, reqs =>
    if u = "" then some ⟨reqs, .ok acc, none⟩
    else
      let eff := mergeParams u enc
      match http eff with
      | .raise => some ⟨reqs ++ [eff], .error (), none⟩
      | .resp s body =>
        if s = 200 then fetchLoop http enc fuel body.nextPage (acc ++ body.elements) (reqs ++ [eff])
        else some ⟨reqs ++ [eff], .ok acc, some s⟩
  | 0, some _, _, _ => none

/-- The query parameters built at source lines 89-94, in dict order. -/
def buildParams (activity_type : String) (start_date end_date : DateTime) :
    List (String × String) :=
  [("activityType", activity_type), ("pageSize", "1000"),
   ("startDate", strftimeZ start_date), ("endDate", strftimeZ end_date)]

def base_url (datacenter : String) : String :=
  "https://" ++ (datacenter ++ ".qualtrics.com/API/v3/logs")

/-- The first-page URL `f"{base_url}?{urlencode(params)}"` (source line 97). -/
def firstUrl (datacenter activity_type : String) (start_date end_date : DateTime) : String :=
  base_url datacenter ++ "?" ++ urlencode (buildParams activity_type start_date end_date)

/-- `get_data_from_api_for_activity_type` (source lines 79-126): builds the
params and first URL, then runs the pagination loop. -/
def get_data_from_api_for_activity_type (http : String → HttpResp) (fuel : Nat)
    (datacenter activity_type : String) (start_date end_date : DateTime) : Option FetchOut :=
  fetchLoop http (urlencode (buildParams activity_type start_date end_date)) fuel
    (some (firstUrl datacenter activity_type start_date end_date)) [] []

/-- `chainFrom http enc url pages v` holds when starting at cursor `url`,
each page in `pages` is served with status 200 in order (requests carry the
merged params) and the cursor after the last page is `v`. -/
def chainFrom (http : String → HttpResp) (enc : String) :
    Option String → List ApiResult → Option String → Prop
  | u, [], v => u = v
  | some u, b :: bs, v =>
    u ≠ "" ∧ http (mergeParams u enc) = .resp 200 b ∧ chainFrom http enc b.nextPage bs v
  | none, _ :: _, _ => False

/-- The effective request URLs issued while consuming a chain of pages. -/
def chainReqs (enc : String) : Option String → List ApiResult → List String
  | some u, b :: bs => mergeParams u enc :: chainReqs enc b.nextPage bs
  | _, [] => []
  | none, _ :: _ => []

theorem chainFrom_nil (http : String → HttpResp) (enc : String) (u v : Option String) :
    chainFrom http enc u [] v = (u = v) := by
  cases u <;> cases v <;> rfl

theorem chainFrom_cons (http : String → HttpResp) (enc : String) (u : String)
    (b : ApiResult) (bs : List ApiResult) (v : Option String) :
    chainFrom http enc (some u) (b :: bs) v =
      (u ≠ "" ∧ http (mergeParams u enc) = .resp 200 b ∧ chainFrom http enc b.nextPage bs v) :=
  rfl

theorem chainFrom_none_cons (http : String → HttpResp) (enc : String)
    (b : ApiResult) (bs : List ApiResult) (v : Option String) :
    chainFrom http enc none (b :: bs) v = False :=
  rfl

theorem fetchLoop_chain_ok (http : String → HttpResp) (enc : String) :
    ∀ (bs : List ApiResult) (url : Option String) (acc : List Rec) (reqs : List String)
      (fuel : Nat), chainFrom http enc url bs none → bs.length ≤ fuel →
      fetchLoop http enc fuel url acc reqs =
        some ⟨reqs ++ chainReqs enc url bs,
              .ok (acc ++ (bs.map ApiResult.elements).flatten), none⟩ := by
  intro bs
  induction bs with
  | nil =>
    intro url acc reqs fuel hchain _
    rw [chainFrom_nil] at hchain
    subst hchain
    cases fuel <;> simp [fetchLoop, chainReqs]
  | cons b bs ih =>
    intro url acc reqs fuel hchain hfuel
    match url with
    | none => rw [chainFrom_none_cons] at hchain; exact absurd hchain (by simp)
    | some u =>
      rw [chainFrom_cons] at hchain
      obtain ⟨hu, hresp, hrest⟩ := hchain
      match fuel with
      | 0 => exact absurd hfuel (by simp)
      | fuel + 1 =>
        rw [fetchLoop, if_neg hu]
        simp only [hresp, if_pos rfl]
        rw [ih b.nextPage (acc ++ b.elements) (reqs ++ [mergeParams u enc]) fuel hrest
          (by simpa using hfuel)]
        simp [chainReqs, List.append_assoc]

theorem fetchLoop_chain_fail (http : String → HttpResp) (enc : String) :
    ∀ (bs : List ApiResult) (url : Option String) (acc : List Rec) (reqs : List String)
      (fuel : Nat) (ufail : String) (s : Nat) (body : ApiResult),
      chainFrom http enc url bs (some ufail) → ufail ≠ "" →
      http (mergeParams ufail enc) = .resp s body → s ≠ 200 → bs.length + 1 ≤ fuel →
      fetchLoop http enc fuel url acc reqs =
        some ⟨reqs ++ chainReqs enc url bs ++ [mergeParams ufail enc],
              .ok (acc ++ (bs.map ApiResult.elements).flatten), some s⟩ := by
  intro bs
  induction bs with
  | nil =>
    intro url acc reqs fuel ufail s body hchain hne hresp hs hfuel
    rw [chainFrom_nil] at hchain
    subst hchain
    match fuel with
    | 0 => exact absurd hfuel (by simp)
    | fuel + 1 =>
      rw [fetchLoop, if_neg hne]
      simp only [hresp, if_neg hs]
      simp [chainReqs]
  | cons b bs ih =>
    intro url acc reqs fuel ufail s body hchain hne hresp hs hfuel
    match url with
    | none => rw [chainFrom_none_cons] at hchain; exact absurd hchain (by simp)
    | some u =>
      rw [chainFrom_cons] at hchain
      obtain ⟨hu, hrespu, hrest⟩ := hchain
      match fuel with
      | 0 => exact absurd hfuel (by simp)
      | fuel + 1 =>
        rw [fetchLoop, if_neg hu]
        simp only [hrespu, if_pos rfl]
        rw [ih b.nextPage (acc ++ b.elements) (reqs ++ [mergeParams u enc]) fuel ufail s body
          hrest hne hresp hs (by simpa using hfuel)]
        simp [chainReqs, List.append_assoc]

/-- Days since the Unix epoch of a Gregorian date (civil-to-days algorithm;
all divisions act on non-negative operands for years ≥ 1). Supports the
`datetime` arithmetic the source delegates to the Python stdlib. -/
def daysFromCivil (y m d : Nat) : Int :=
  let y1 : Int := if m ≤ 2 then (y : Int) - 1 else (y : Int)
  let era : Int := (if 0 ≤ y1 then y1 else y1 - 399) / 400
  let yoe : Int := y1 - era * 400
  let mp : Int := if 2 < m then (m : Int) - 3 else (m : Int) + 9
  let doy : Int := (153 * mp + 2) / 5 + (d : Int) - 1
  let doe : Int := yoe * 365 + yoe / 4 - yoe / 100 + doy
  era * 146097 + doe - 719468

/-- Inverse of `daysFromCivil` (days-to-civil algorithm). -/
def civilFromDays (z0 : Int) : Int × Nat × Nat :=
  let z : Int := z0 + 719468
  let era : Int := (if 0 ≤ z then z else z - 146096) / 146097
  let doe : Int := z - era * 146097
  let yoe : Int := (doe - doe / 1460 + doe / 36524 - doe / 146096) / 365
  let y : Int := yoe + era * 400
  let doy : Int := doe - (365 * yoe + yoe / 4 - yoe / 100)
  let mp : Int := (5 * doy + 2) / 153
  let d : Int := doy - (153 * mp + 2) / 5 + 1
  let m : Int := if mp < 10 then mp + 3 else mp - 9
  (if m ≤ 2 then y + 1 else y, m.toNat, d.toNat)

/-- Modelled from the Python stdlib: `dt - timedelta(days=n)` on a naive
datetime — the date moves back `n` days, the time of day is unchanged. -/
def subDays (dt : DateTime) (n : Nat) : DateTime :=
  let z := daysFromCivil dt.year dt.month dt.day - (n : Int)
  let c := civilFromDays z
  ⟨c.1.toNat, c.2.1, c.2.2, dt.hour, dt.minute, dt.second, dt.microsecond⟩

/-- Modelled from the Python stdlib: `datetime.timestamp()` on an aware
datetime with the given UTC offset in minutes, scaled to an integer count
of microseconds since the epoch (the float seconds value times `10^6`). -/
def posixTimestampMicro (dt : DateTime) (offMin : Int) : Int :=
  ((daysFromCivil dt.year dt.month dt.day) * 86400 +
    ((dt.hour * 3600 + dt.minute * 60 + dt.second : Nat) : Int) - offMin * 60) * 1000000 +
    (dt.microsecond : Int)

/-- A checkpoint value as stored in the KV store: the JSON object dict as
an ordered association list of string fields. -/
abbrev CkptData : Type := List (String × String)

/-- `get_checkpoint_key` (source lines 50-52). -/
def get_checkpoint_key (input_name account_name : String) : String :=
  input_name ++ "_" ++ account_name ++ "_last_end_date"

/-- `save_checkpoint`'s stored value (source lines 68-76):
`{"last_end_date": end_date.isoformat(), "updated_at": utcnow().isoformat()}`. -/
def save_checkpoint_data (end_date updated_at : DateTime) : CkptData :=
  [("last_end_date", datetime_isoformat end_date),
   ("updated_at", datetime_isoformat updated_at)]

/-- `get_last_end_date` (source lines 55-65). The store lookup returns
`.error ()` when `ckpt.get` raises, `.ok none` when no checkpoint exists.
`clock i` is the next `datetime.utcnow()` sample; the function returns the
window start together with the next unconsumed clock index. The
`try/except` around the body means every failure path falls through to
`utcnow() - timedelta(days=90)`; the function is total (never raises). -/
def get_last_end_date (store : String → Except Unit (Option CkptData))
    (clock : Nat → DateTime) (i : Nat) (key : String) : DateTime × Nat :=
  let fb := (subDays (clock i) 90, i + 1)
  match store key with
  | .error _ => fb
  | .ok none => fb
  | .ok (some data) =>
    if data = ([] : List (String × String)) then fb
    else
      match List.lookup "last_end_date" data with
      | none => fb
      | some s =>
        match datetime_fromisoformat s with
        | some (dt, _) => (dt, i)
        | none => fb

/-- One output event handed to `event_writer.write_event` (source lines
200-212), with `time` as integer POSIX microseconds. -/
structure Event where
  time : Int
  data : String
  sourcetype : String
  source : String
deriving DecidableEq

/-- Builds the `smi.Event` for one record (source lines 201-212): parse the
record's `timestamp` with `Z` replaced by `+00:00`, serialise its
`descriptor`, and tag with the per-activity sourcetype and the API source.
`none` models the `ValueError`/`KeyError` the parse can raise; a naive
parse result falls back to the process-local UTC offset `tzOffMin`
(CPython `.timestamp()` on a naive datetime assumes local time). -/
def mkEvent (tzOffMin : Int) (datacenter activity_type : String) (r : Rec) : Option Event :=
  match datetime_fromisoformat (pyReplace r.timestamp "Z" "+00:00") with
  | none => none
  | some (dt, off) =>
    some ⟨posixTimestampMicro dt (off.getD tzOffMin), jsonDumps r.descriptor,
          "qualtrics:audit:" ++ activity_type,
          datacenter ++ ".qualtrics.com/API/v3/logs"⟩

/-- The `for line in data:` emission loop (source lines 200-214): events
written before a failing record stay written; the Bool records whether an
exception was raised partway. -/
def emitAll (tzOffMin : Int) (datacenter activity_type : String) :
    List Rec → List Event × Bool
  | [] => ([], false)
  | r :: rs =>
    match mkEvent tzOffMin datacenter activity_type r with
    | none => ([], true)
    | some ev =>
      let p := emitAll tzOffMin datacenter activity_type rs
      (ev :: p.1, p.2)

/-- Outcome of the per-activity-type body (source lines 189-224): events
written, whether the `except` at line 220 fired, requests issued and any
non-200 status logged by the fetch. -/
structure ActOut where
  events : List Event
  failed : Bool
  reqs : List String
  errStatus : Option Nat

/-- The `try:` body for one activity type (source lines 189-219) together
with its `except` (lines 220-224): a fetch exception or an emission
exception is caught here; `none` propagates fuel exhaustion of the
pagination loop. -/
def processActivity (http : String → HttpResp) (fuel : Nat) (tzOffMin : Int)
    (datacenter activity_type : String) (start_date end_date : DateTime) : Option ActOut :=
  match get_data_from_api_for_activity_type http fuel datacenter activity_type
      start_date end_date with
  | none => none
  | some f =>
    match f.out with
    | .error _ => some ⟨[], true, f.reqs, f.errStatus⟩
    | .ok data =>
      let p := emitAll tzOffMin datacenter activity_type data
      some ⟨p.1, p.2, f.reqs, f.errStatus⟩

/-- Accumulated outcome of the `for activity_type in selected_activity_types`
loop (source lines 188-224). -/
structure AccOut where
  events : List Event
  calls : List (String × DateTime × DateTime)
  failures : List String
  reqs : List String
  errs : List Nat

/-- The loop over configured activity types: each iteration fetches and
emits for one activity type; a failure is logged (`failures`) and the loop
continues with the next activity type. -/
def processAll (http : String → HttpResp) (fuel : Nat) (tzOffMin : Int)
    (datacenter : String) (start_date end_date : DateTime) :
    List String → Option AccOut
  | [] => some ⟨[], [], [], [], []⟩
  | a :: rest =>
    match processActivity http fuel tzOffMin datacenter a start_date end_date with
    | none => none
    | some o =>
      match processAll http fuel tzOffMin datacenter start_date end_date rest with
      | none => none
      | some acc =>
        some ⟨o.events ++ acc.events, (a, start_date, end_date) :: acc.calls,
              (if o.failed then [a] else []) ++ acc.failures,
              o.reqs ++ acc.reqs, o.errStatus.toList ++ acc.errs⟩

/-- `get_account_config`'s result (source lines 36-47). -/
structure AccountCfg where
  api_key : String
  datacenter : String

/-- Environment of one iteration of the per-input loop in `stream_events`:
the input's configuration, the checkpoint store, the HTTP layer, the
`utcnow()` sample stream and the process-local UTC offset. `accountResolve`
is `.error ()` when `get_account_config` (or anything before it) raises. -/
structure InputEnv where
  inputName : String
  accountName : String
  accountResolve : Except Unit AccountCfg
  activityTypesRaw : String
  store : String → Except Unit (Option CkptData)
  http : String → HttpResp
  clock : Nat → DateTime
  tzOffMin : Int

/-- Observable outcome of one per-input run. -/
structure RunResult where
  events : List Event
  saved : Option (String × CkptData)
  fetchCalls : List (String × DateTime × DateTime)
  activityFailures : List String
  httpErrors : List Nat
  reqs : List String
  inputError : Bool

/-- `input_name.split("/")[-1]` (source line 149). -/
def normInputName (env : InputEnv) : String :=
  (pySplit env.inputName "/").getLastD env.inputName

/-- The configured activity types
`[t.strip() for t in input_item.get("activity_types", "").split(",")]`
(source lines 168-170). -/
def runAts (env : InputEnv) : List String :=
  (pySplit env.activityTypesRaw ",").map pyStrip

/-- The checkpoint key of the run (source line 175). -/
def runKey (env : InputEnv) : String :=
  get_checkpoint_key (normInputName env) env.accountName

/-- The window start `get_last_end_date(ckpt, checkpoint_key)` (source line
176) together with the next unconsumed clock index. -/
def runStartSt (env : InputEnv) : DateTime × Nat :=
  get_last_end_date env.store env.clock 0 (runKey env)

def runStart (env : InputEnv) : DateTime := (runStartSt env).1

/-- The clock index at which `end_date = datetime.utcnow()` (source line
177) is sampled. -/
def runEndIdx (env : InputEnv) : Nat := (runStartSt env).2

/-- The window end, captured once at source line 177. -/
def runEnd (env : InputEnv) : DateTime := env.clock (runEndIdx env)

/-- One iteration of the per-input loop of `stream_events` (source lines
148-246): resolve the account (failure goes to the per-input catch-all at
line 240), split and strip the configured activity types, read the
checkpoint to get the window start, capture `end_date = utcnow()` once,
process every activity type with that same window, then save the
checkpoint with the captured end date (`updated_at` samples the clock
again). `none` propagates fuel exhaustion of the pagination loop. -/
def stream_events_input (env : InputEnv) (fuel : Nat) : Option RunResult :=
  match env.accountResolve with
  | .error _ => some ⟨[], none, [], [], [], [], true⟩
  | .ok cfg =>
    match processAll env.http fuel env.tzOffMin cfg.datacenter
        (runStart env) (runEnd env) (runAts env) with
    | none => none
    | some acc =>
      some ⟨acc.events,
            some (runKey env,
              save_checkpoint_data (runEnd env) (env.clock (runEndIdx env + 1))),
            acc.calls, acc.failures, acc.errs, acc.reqs, false⟩

/-- Events contributed by one activity type, as a function of that
activity type alone. -/
def activityEvents (http : String → HttpResp) (fuel : Nat) (tzOffMin : Int)
    (datacenter : String) (start_date end_date : DateTime) (a : String) : List Event :=
  match processActivity http fuel tzOffMin datacenter a start_date end_date with
  | some o => o.events
  | none => []

/-- Whether one activity type's processing failed (its `except` fired), as
a function of that activity type alone. -/
def activityFailed (http : String → HttpResp) (fuel : Nat) (tzOffMin : Int)
    (datacenter : String) (start_date end_date : DateTime) (a : String) : Bool :=
  match processActivity http fuel tzOffMin datacenter a start_date end_date with
  | some o => o.failed
  | none => false

theorem processAll_spec (http : String → HttpResp) (fuel : Nat) (tzOffMin : Int)
    (datacenter : String) (start_date end_date : DateTime) :
    ∀ (ats : List String) (acc : AccOut),
      processAll http fuel tzOffMin datacenter start_date end_date ats = some acc →
      acc.events = (ats.map
          (activityEvents http fuel tzOffMin datacenter start_date end_date)).flatten ∧
      acc.calls = ats.map (fun a => (a, start_date, end_date)) ∧
      acc.failures = ats.filter
          (activityFailed http fuel tzOffMin datacenter start_date end_date) := by
  intro ats
  induction ats with
  | nil =>
    intro acc h
    simp only [processAll, Option.some.injEq] at h
    subst h
    refine ⟨rfl, rfl, rfl⟩
  | cons a rest ih =>
    intro acc h
    simp only [processAll] at h
    rcases ho : processActivity http fuel tzOffMin datacenter a start_date end_date
      with _ | o
    · rw [ho] at h; exact absurd h (by simp)
    · rw [ho] at h
      rcases hr : processAll http fuel tzOffMin datacenter start_date end_date rest
        with _ | racc
      · rw [hr] at h; exact absurd h (by simp)
      · rw [hr] at h
        simp only [Option.some.injEq] at h
        subst h
        obtain ⟨he, hc, hf⟩ := ih racc hr
        refine ⟨?_, ?_, ?_⟩
        · simp only [List.map_cons, List.flatten_cons, he, activityEvents, ho]
        · simp only [List.map_cons, hc]
        · simp only [List.filter_cons, hf, activityFailed, ho]
          cases o.failed <;> simp

theorem https_prefix_ne_empty (t : String) : ("https://" ++ t) ≠ "" := by
  intro h
  have hl := congrArg String.length h
  rw [String.length_append] at hl
  have h8 : ("https://" : String).length = 8 := rfl
  have h0 : ("" : String).length = 0 := rfl
  omega

theorem string_ne_empty_length_pos (s : String) (h : s ≠ "") : 0 < s.length := by
  rcases hn : s.length with _ | n
  · exfalso
    apply h
    have hd : s.data.length = 0 := hn
    have : s.data = [] := List.length_eq_zero.mp hd
    cases s
    simp_all
  · omega

/-- When the params encoding is nonempty, the merged URL is strictly longer
than the bare URL, hence different from it. -/
theorem mergeParams_ne (u enc : String) (henc : enc ≠ "") : mergeParams u enc ≠ u := by
  have hpos := string_ne_empty_length_pos enc henc
  unfold mergeParams
  rw [if_neg henc]
  by_cases hq : containsChar u '?'
  · rw [if_pos hq]
    intro h
    have := congrArg String.length h
    rw [String.length_append, String.length_append] at this
    simp only [String.length] at this hpos
    omega
  · rw [if_neg hq]
    intro h
    have := congrArg String.length h
    rw [String.length_append, String.length_append] at this
    simp only [String.length] at this hpos
    omega

/-- Every result of the pagination loop carries the initial request log as
a prefix. -/
theorem fetchLoop_reqs_prefix (http : String → HttpResp) (enc : String) :
    ∀ (fuel : Nat) (url : Option String) (acc : List Rec) (reqs : List String)
      (out : FetchOut), fetchLoop http enc fuel url acc reqs = some out →
      ∃ tl, out.reqs = reqs ++ tl := by
  intro fuel
  induction fuel with
  | zero =>
    intro url acc reqs out h
    match url with
    | none =>
      simp only [fetchLoop, Option.some.injEq] at h
      subst h
      exact ⟨[], by simp⟩
    | some u => simp [fetchLoop] at h
  | succ fuel ih =>
    intro url acc reqs out h
    match url with
    | none =>
      simp only [fetchLoop, Option.some.injEq] at h
      subst h
      exact ⟨[], by simp⟩
    | some u =>
      rw [fetchLoop] at h
      by_cases hu : u = ""
      · rw [if_pos hu] at h
        simp only [Option.some.injEq] at h
        subst h
        exact ⟨[], by simp⟩
      · rw [if_neg hu] at h
        simp only at h
        split at h
        · simp only [Option.some.injEq] at h
          subst h
          exact ⟨[mergeParams u enc], rfl⟩
        · split at h
          · obtain ⟨tl, htl⟩ := ih _ _ _ _ h
            exact ⟨mergeParams u enc :: tl, by rw [htl]; simp⟩
          · simp only [Option.some.injEq] at h
            subst h
            exact ⟨[mergeParams u enc], rfl⟩

/-- Whatever the response, the first iteration of the pagination loop on a
nonempty URL issues exactly the request `mergeParams u enc`. -/
theorem fetchLoop_first_req (http : String → HttpResp) (enc : String)
    (fuel : Nat) (u : String) (acc : List Rec) (reqs : List String) (out : FetchOut)
    (hu : u ≠ "") (h : fetchLoop http enc (fuel + 1) (some u) acc reqs = some out) :
    ∃ tl, out.reqs = reqs ++ [mergeParams u enc] ++ tl := by
  rw [fetchLoop, if_neg hu] at h
  simp only at h
  split at h
  · simp only [Option.some.injEq] at h
    subst h
    exact ⟨[], by simp⟩
  · split at h
    · obtain ⟨tl, htl⟩ := fetchLoop_reqs_prefix http enc fuel _ _ _ _ h
      exact ⟨tl, by rw [htl]⟩
    · simp only [Option.some.injEq] at h
      subst h
      exact ⟨[], by simp⟩

/-- Number of digits in the fractional-seconds field of a rendered
timestamp: the digits following the first dot. -/
def fracDigitCount (s : String) : Nat :=
  (((s.data.dropWhile (fun c => c != '.')).drop 1).takeWhile Char.isDigit).length

theorem dropWhile_append_of_all {p : Char → Bool} :
    ∀ (xs ys : List Char), (∀ x ∈ xs, p x = true) →
      List.dropWhile p (xs ++ ys) = List.dropWhile p ys := by
  intro xs ys h
  induction xs with
  | nil => rfl
  | cons x xs ih =>
    have hx := h x (List.mem_cons_self x xs)
    rw [List.cons_append, List.dropWhile_cons, hx]
    simp only
    exact ih (fun a ha => h a (List.mem_cons_of_mem x ha))

theorem takeWhile_append_of_all {p : Char → Bool} :
    ∀ (xs ys : List Char), (∀ x ∈ xs, p x = true) →
      List.takeWhile p (xs ++ ys) = xs ++ List.takeWhile p ys := by
  intro xs ys h
  induction xs with
  | nil => rfl
  | cons x xs ih =>
    have hx := h x (List.mem_cons_self x xs)
    have hrest := ih (fun a ha => h a (List.mem_cons_of_mem x ha))
    simp [List.cons_append, List.takeWhile_cons, hx, hrest]

theorem isDigit_ne_dot (c : Char) (h : c.isDigit = true) : (c != '.') = true := by
  rcases hc : c == '.' with _ | _
  · simp [bne, hc]
  · exfalso
    have : c = '.' := by
      have := hc
      simpa [beq_iff_eq] using this
    subst this
    simp [Char.isDigit] at h

theorem String_data_mk (l : List Char) : (String.mk l).data = l := rfl

theorem dropWhile_dot_seg (w n : Nat) (sep : Char) (rest : List Char)
    (hsep : (sep != '.') = true) :
    List.dropWhile (fun c => c != '.') (padChars w n ++ sep :: rest) =
      List.dropWhile (fun c => c != '.') rest := by
  rw [dropWhile_append_of_all _ _
    (fun c hc => isDigit_ne_dot c (padChars_all_digits w n c hc))]
  rw [List.dropWhile_cons]
  simp [hsep]

theorem dropWhile_dot_stop (w n : Nat) (rest : List Char) :
    List.dropWhile (fun c => c != '.') (padChars w n ++ '.' :: rest) = '.' :: rest := by
  rw [dropWhile_append_of_all _ _
    (fun c hc => isDigit_ne_dot c (padChars_all_digits w n c hc))]
  rw [List.dropWhile_cons]
  simp

/-- The `%Y-%m-%dT%H:%M:%S.%fZ` rendering always carries exactly six
digits after the dot: `%f` is microsecond, not millisecond, precision. -/
theorem fracDigitCount_strftimeZ (d : DateTime) : fracDigitCount (strftimeZ d) = 6 := by
  unfold fracDigitCount strftimeZ strftimeZChars
  rw [String_data_mk]
  rw [dropWhile_dot_seg 4 d.year '-' _ (by decide)]
  rw [dropWhile_dot_seg 2 d.month '-' _ (by decide)]
  rw [dropWhile_dot_seg 2 d.day 'T' _ (by decide)]
  rw [dropWhile_dot_seg 2 d.hour ':' _ (by decide)]
  rw [dropWhile_dot_seg 2 d.minute ':' _ (by decide)]
  rw [dropWhile_dot_stop 2 d.second _]
  rw [List.drop_succ_cons, List.drop_zero]
  rw [takeWhile_append_of_all _ _ (padChars_all_digits 6 d.microsecond)]
  have hz : List.takeWhile Char.isDigit ['Z'] = [] := by decide
  rw [hz, List.length_append, padChars_length]
  rfl

theorem last_append {c : Char} (xs : List Char) {ys : List Char}
    (h : ys.getLast? = some c) : (xs ++ ys).getLast? = some c := by
  rw [List.getLast?_append, h]
  rfl

theorem last_cons {c : Char} (x : Char) {ys : List Char}
    (h : ys.getLast? = some c) : (x :: ys).getLast? = some c := by
  cases ys with
  | nil => simp at h
  | cons y l =>
    rw [List.getLast?_cons_cons]
    exact h

/-- The `%Y-%m-%dT%H:%M:%S.%fZ` rendering ends with the literal `Z`. -/
theorem strftimeZ_last (d : DateTime) : (strftimeZ d).data.getLast? = some 'Z' := by
  unfold strftimeZ strftimeZChars
  rw [String_data_mk]
  exact last_append _ (last_cons _ (last_append _ (last_cons _ (last_append _ (last_cons _
    (last_append _ (last_cons _ (last_append _ (last_cons _ (last_append _ (last_cons _
    (last_append _ rfl))))))))))))

theorem append_ne_empty_left (s t : String) (h : s ≠ "") : (s ++ t) ≠ "" := by
  intro he
  have hl := congrArg String.length he
  rw [String.length_append] at hl
  have hp := string_ne_empty_length_pos s h
  have h0 : ("" : String).length = 0 := rfl
  omega

theorem firstUrl_ne_empty (datacenter activity_type : String) (s e : DateTime) :
    firstUrl datacenter activity_type s e ≠ "" := by
  unfold firstUrl base_url
  exact append_ne_empty_left _ _ (append_ne_empty_left _ _ (https_prefix_ne_empty _))

/-- C3: when a page of the pagination responds with a non-success status
after a chain of successful pages, `get_data_from_api_for_activity_type`
stops at that page (it is requested exactly once and nothing after it),
returns normally (`.ok`, no exception) with exactly the records
accumulated from the preceding successful pages, and logs the failing
status via `logger.error` (`errStatus`). -/
theorem C3_non200_stops_returns_partial_logs_no_raise
    (http : String → HttpResp) (fuel : Nat) (datacenter activity_type : String)
    (s e : DateTime) (bs : List ApiResult) (ufail : String) (st : Nat) (body : ApiResult)
    (hchain : chainFrom http (urlencode (buildParams activity_type s e))
      (some (firstUrl datacenter activity_type s e)) bs (some ufail))
    (hne : ufail ≠ "")
    (hresp : http (mergeParams ufail (urlencode (buildParams activity_type s e)))
      = .resp st body)
    (hst : st ≠ 200) (hfuel : bs.length + 1 ≤ fuel) :
    get_data_from_api_for_activity_type http fuel datacenter activity_type s e =
      some ⟨chainReqs (urlencode (buildParams activity_type s e))
              (some (firstUrl datacenter activity_type s e)) bs ++
              [mergeParams ufail (urlencode (buildParams activity_type s e))],
            .ok ((bs.map ApiResult.elements).flatten), some st⟩ := by
  have h := fetchLoop_chain_fail http (urlencode (buildParams activity_type s e)) bs
    (some (firstUrl datacenter activity_type s e)) [] [] fuel ufail st body
    hchain hne hresp hst hfuel
  rw [get_data_from_api_for_activity_type, h]
  simp

/-- C4: for a finite chain of successful pages whose last page carries no
`nextPage` cursor, the pagination loop consumes exactly those pages (one
request each) and terminates, the returned records are the concatenation
of every page's `elements` list, no error is logged, and the total record
count is the sum of the per-page element counts. -/
theorem C4_pagination_terminates_and_concatenates
    (http : String → HttpResp) (fuel : Nat) (datacenter activity_type : String)
    (s e : DateTime) (bs : List ApiResult)
    (hchain : chainFrom http (urlencode (buildParams activity_type s e))
      (some (firstUrl datacenter activity_type s e)) bs none)
    (hfuel : bs.length ≤ fuel) :
    get_data_from_api_for_activity_type http fuel datacenter activity_type s e =
      some ⟨chainReqs (urlencode (buildParams activity_type s e))
              (some (firstUrl datacenter activity_type s e)) bs,
            .ok ((bs.map ApiResult.elements).flatten), none⟩ ∧
    ((bs.map ApiResult.elements).flatten).length =
      (bs.map (fun b => b.elements.length)).sum := by
  constructor
  · have h := fetchLoop_chain_ok http (urlencode (buildParams activity_type s e)) bs
      (some (firstUrl datacenter activity_type s e)) [] [] fuel hchain hfuel
    rw [get_data_from_api_for_activity_type, h]
    simp
  · rw [List.length_flatten, List.map_map]
    rfl

/-- C7 (amended): each pagination request after the first is the previous
response's `nextPage` cursor with the original query parameters appended
again — the source passes `params=params` on every `session.get`, so the
cursor URL is NOT followed verbatim whenever the parameter encoding is
nonempty. -/
theorem C7_cursor_requests_carry_params_again
    (http : String → HttpResp) (enc : String) (fuel : Nat) (u : String)
    (acc : List Rec) (reqs : List String) (out : FetchOut)
    (hu : u ≠ "") (henc : enc ≠ "")
    (h : fetchLoop http enc (fuel + 1) (some u) acc reqs = some out) :
    (∃ tl, out.reqs = reqs ++ [mergeParams u enc] ++ tl) ∧ mergeParams u enc ≠ u :=
  ⟨fetchLoop_first_req http enc fuel u acc reqs out hu h, mergeParams_ne u enc henc⟩

/-- C8 (amended): the first request of every fetch is the base URL with the
query parameters `activityType`, `pageSize=1000`, `startDate`, `endDate`
(re-appended once more by the HTTP client since the source passes both a
pre-encoded URL and `params=`); the start/end timestamps carry a literal
`Z` suffix and exactly six fractional digits — microsecond, not
millisecond, precision. -/
theorem C8_first_request_params_microsecond_Z
    (http : String → HttpResp) (fuel : Nat) (datacenter activity_type : String)
    (s e : DateTime) (out : FetchOut)
    (h : get_data_from_api_for_activity_type http (fuel + 1) datacenter activity_type s e
      = some out) :
    out.reqs.head? = some (mergeParams (firstUrl datacenter activity_type s e)
      (urlencode (buildParams activity_type s e))) ∧
    buildParams activity_type s e =
      [("activityType", activity_type), ("pageSize", "1000"),
       ("startDate", strftimeZ s), ("endDate", strftimeZ e)] ∧
    fracDigitCount (strftimeZ s) = 6 ∧ (strftimeZ s).data.getLast? = some 'Z' ∧
    fracDigitCount (strftimeZ e) = 6 ∧ (strftimeZ e).data.getLast? = some 'Z' := by
  rw [get_data_from_api_for_activity_type] at h
  obtain ⟨tl, htl⟩ := fetchLoop_first_req _ _ fuel _ [] [] out
    (firstUrl_ne_empty datacenter activity_type s e) h
  refine ⟨?_, rfl, fracDigitCount_strftimeZ s, strftimeZ_last s,
    fracDigitCount_strftimeZ e, strftimeZ_last e⟩
  rw [htl]
  simp

/-- C5: the window start is the stored checkpoint value when it parses;
when the store read raises, the checkpoint is absent, the field is missing
or the stored value is unparsable, it is `utcnow() - timedelta(days=90)` —
and `get_last_end_date` is a total function (the `try/except` swallows
every failure; no exception escapes the window computation). -/
theorem C5_window_start_fallback_or_stored
    (store : String → Except Unit (Option CkptData)) (clock : Nat → DateTime)
    (i : Nat) (key : String) :
    (store key = .error () →
      get_last_end_date store clock i key = (subDays (clock i) 90, i + 1)) ∧
    (store key = .ok none →
      get_last_end_date store clock i key = (subDays (clock i) 90, i + 1)) ∧
    (∀ data, store key = .ok (some data) →
      List.lookup "last_end_date" data = none →
      get_last_end_date store clock i key = (subDays (clock i) 90, i + 1)) ∧
    (∀ data sv, store key = .ok (some data) →
      List.lookup "last_end_date" data = some sv →
      datetime_fromisoformat sv = none →
      get_last_end_date store clock i key = (subDays (clock i) 90, i + 1)) ∧
    (∀ data sv dt off, store key = .ok (some data) →
      List.lookup "last_end_date" data = some sv →
      datetime_fromisoformat sv = some (dt, off) →
      get_last_end_date store clock i key = (dt, i)) := by
  refine ⟨?_, ?_, ?_, ?_, ?_⟩
  · intro h
    simp [get_last_end_date, h]
  · intro h
    simp [get_last_end_date, h]
  · intro data h hlook
    by_cases hd : data = ([] : List (String × String))
    · simp [get_last_end_date, h, hd]
    · simp [get_last_end_date, h, hd, hlook]
  · intro data sv h hlook hparse
    have hd : data ≠ ([] : List (String × String)) := by
      intro hd
      subst hd
      simp [List.lookup] at hlook
    simp [get_last_end_date, h, hd, hlook, hparse]
  · intro data sv dt off h hlook hparse
    have hd : data ≠ ([] : List (String × String)) := by
      intro hd
      subst hd
      simp [List.lookup] at hlook
    simp [get_last_end_date, h, hd, hlook, hparse]

/-- C10: saving a checkpoint for `end_date = d` and then reading the window
start back through a store that returns the saved object yields exactly
`d`: `isoformat` in `save_checkpoint` and `fromisoformat` in
`get_last_end_date` form a round trip on every valid datetime. -/
theorem C10_checkpoint_roundtrip (d u : DateTime) (key : String)
    (clock : Nat → DateTime) (hv : ValidDT d = true) :
    (get_last_end_date
      (fun k => if k = key then .ok (some (save_checkpoint_data d u)) else .ok none)
      clock 0 key).1 = d := by
  have hlook : List.lookup "last_end_date" (save_checkpoint_data d u)
      = some (datetime_isoformat d) := by
    simp [save_checkpoint_data, List.lookup]
  have hne : save_checkpoint_data d u ≠ ([] : List (String × String)) := by
    simp [save_checkpoint_data]
  simp [get_last_end_date, hne, hlook, fromisoformat_isoformat d hv]

/-- C9 (amended): every event emitted by the per-record loop comes from
`mkEvent` on a fetched record, and such an event has `data` equal to the
JSON serialisation of the record's `descriptor`, sourcetype
`qualtrics:audit:<activity_type>` (the spec's `audit:<activity_type>` is
missing the `qualtrics:` prefix), source `<datacenter>.qualtrics.com/API/v3/logs`,
and time equal to the POSIX timestamp parsed from the record's `timestamp`
field. -/
theorem C9_event_shape (tzOffMin : Int) (datacenter activity_type : String) :
    (∀ (rs : List Rec) (ev : Event),
      ev ∈ (emitAll tzOffMin datacenter activity_type rs).1 →
      ∃ r, r ∈ rs ∧ mkEvent tzOffMin datacenter activity_type r = some ev) ∧
    (∀ (r : Rec) (ev : Event), mkEvent tzOffMin datacenter activity_type r = some ev →
      ev.data = jsonDumps r.descriptor ∧
      ev.sourcetype = "qualtrics:audit:" ++ activity_type ∧
      ev.source = datacenter ++ ".qualtrics.com/API/v3/logs" ∧
      ∀ dt off, datetime_fromisoformat (pyReplace r.timestamp "Z" "+00:00") = some (dt, off) →
        ev.time = posixTimestampMicro dt (off.getD tzOffMin)) := by
  constructor
  · intro rs
    induction rs with
    | nil =>
      intro ev hev
      simp [emitAll] at hev
    | cons r rest ih =>
      intro ev hev
      rw [emitAll] at hev
      rcases hm : mkEvent tzOffMin datacenter activity_type r with _ | ev0
      · rw [hm] at hev
        simp at hev
      · rw [hm] at hev
        simp only [List.mem_cons] at hev
        rcases hev with hev | hev
        · exact ⟨r, List.mem_cons_self r rest, by rw [hm, hev]⟩
        · obtain ⟨r1, hr1, hm1⟩ := ih ev hev
          exact ⟨r1, List.mem_cons_of_mem r hr1, hm1⟩
  · intro r ev h
    unfold mkEvent at h
    split at h
    · exact absurd h (by simp)
    · rename_i dt off heq
      simp only [Option.some.injEq] at h
      subst h
      refine ⟨rfl, rfl, rfl, ?_⟩
      intro dt1 off1 heq1
      rw [heq] at heq1
      simp only [Option.some.injEq, Prod.mk.injEq] at heq1
      obtain ⟨h1, h2⟩ := heq1
      subst h1
      subst h2
      rfl

/-- C1 (amended): an exception in the fetch or emit phase of an activity
type is caught by the per-activity-type handler (source lines 220-224), so
the checkpoint is still committed at the end of the run; the checkpoint
write is skipped only when the run fails before the per-activity loop
(account resolution), in which case the per-input catch-all fires and
nothing is saved. -/
theorem C1_fetch_emit_failures_do_not_block_commit
    (env : InputEnv) (fuel : Nat) (r : RunResult)
    (h : stream_events_input env fuel = some r) :
    (∀ cfg, env.accountResolve = .ok cfg → r.saved.isSome = true) ∧
    (env.accountResolve = .error () → r.saved = none ∧ r.inputError = true) := by
  unfold stream_events_input at h
  split at h
  · rename_i heq
    simp only [Option.some.injEq] at h
    subst h
    constructor
    · intro cfg hok
      rw [heq] at hok
      exact absurd hok (by simp)
    · intro _
      exact ⟨rfl, rfl⟩
  · rename_i cfg heq
    split at h
    · exact absurd h (by simp)
    · rename_i acc hacc
      simp only [Option.some.injEq] at h
      subst h
      constructor
      · intro _ _
        rfl
      · intro herr
        rw [heq] at herr
        exact absurd herr (by simp)

/-- C2: with account resolution successful and the run completing, the
checkpoint is committed regardless of per-activity failures, every
configured activity type is fetched with the run's window, each activity
type's emitted events are a function of that activity type alone
(independent units of partial failure), and the failed ones are exactly
those whose per-activity handler fired (logged and skipped, processing
continuing with the rest). -/
theorem C2_activity_types_isolated_and_checkpoint_commits
    (env : InputEnv) (cfg : AccountCfg) (fuel : Nat) (r : RunResult)
    (hok : env.accountResolve = .ok cfg)
    (h : stream_events_input env fuel = some r) :
    r.saved.isSome = true ∧
    r.events = ((runAts env).map (activityEvents env.http fuel env.tzOffMin
      cfg.datacenter (runStart env) (runEnd env))).flatten ∧
    r.activityFailures = (runAts env).filter (activityFailed env.http fuel env.tzOffMin
      cfg.datacenter (runStart env) (runEnd env)) ∧
    r.fetchCalls = (runAts env).map (fun a => (a, runStart env, runEnd env)) := by
  unfold stream_events_input at h
  split at h
  · rename_i heq
    rw [heq] at hok
    exact absurd hok (by simp)
  · rename_i cfg1 heq
    have hcfg : cfg1 = cfg := by
      rw [heq] at hok
      simpa using hok
    subst hcfg
    split at h
    · exact absurd h (by simp)
    · rename_i acc hacc
      simp only [Option.some.injEq] at h
      subst h
      obtain ⟨he, hc, hf⟩ := processAll_spec env.http fuel env.tzOffMin cfg1.datacenter
        (runStart env) (runEnd env) (runAts env) acc hacc
      exact ⟨rfl, he, hf, hc⟩

/-- C6: the window end is one clock sample, taken right after the window
start is computed and before any fetch; every activity type's fetch is
passed exactly that sample, and the committed checkpoint's
`last_end_date` is the isoformat of exactly that sample while its
`updated_at` is a strictly later clock sample — the checkpoint stores the
captured end, not a later wall-clock reading. -/
theorem C6_end_captured_once_and_committed
    (env : InputEnv) (cfg : AccountCfg) (fuel : Nat) (r : RunResult)
    (hok : env.accountResolve = .ok cfg)
    (h : stream_events_input env fuel = some r) :
    r.saved = some (runKey env,
      save_checkpoint_data (runEnd env) (env.clock (runEndIdx env + 1))) ∧
    runEnd env = env.clock (runEndIdx env) ∧
    (∀ c ∈ r.fetchCalls, c.2.2 = runEnd env) := by
  unfold stream_events_input at h
  split at h
  · rename_i heq
    rw [heq] at hok
    exact absurd hok (by simp)
  · rename_i cfg1 heq
    split at h
    · exact absurd h (by simp)
    · rename_i acc hacc
      simp only [Option.some.injEq] at h
      subst h
      obtain ⟨_, hc, _⟩ := processAll_spec env.http fuel env.tzOffMin cfg1.datacenter
        (runStart env) (runEnd env) (runAts env) acc hacc
      refine ⟨rfl, rfl, ?_⟩
      intro c hcmem
      rw [hc] at hcmem
      simp only [List.mem_map] at hcmem
      obtain ⟨a, _, hceq⟩ := hcmem
      rw [← hceq]

/-! Concrete scenarios used by the witnesses and counterexamples. -/

def dtS : DateTime := ⟨2024, 1, 1, 0, 0, 0, 0⟩

def dtE : DateTime := ⟨2024, 4, 1, 0, 0, 0, 0⟩

def dtClk : DateTime := ⟨2024, 3, 31, 5, 0, 0, 0⟩

def rec3 : Rec := ⟨"2024-01-02T03:04:05.000006Z", Json.null⟩

def cursor3 : String := "https://api.qualtrics.com/API/v3/logs?skipToken=c3"

def page3a : ApiResult := ⟨[rec3], some cursor3⟩

/-- Server for C3's witness: first page succeeds with a cursor, the cursor
page answers 500. -/
def http3 : String → HttpResp := fun u =>
  if (pySplit u "skipToken").length = 1 then .resp 200 page3a else .resp 500 ⟨[], none⟩

def cursor4 : String := "https://api.qualtrics.com/API/v3/logs?skipToken=c4"

def page4a : ApiResult := ⟨List.replicate 1000 rec3, some cursor4⟩

def page4b : ApiResult := ⟨List.replicate 350 rec3, none⟩

/-- Server for C4's witness: 1000 elements then 350 elements, no further
cursor (the spec's two-page scenario). -/
def http4 : String → HttpResp := fun u =>
  if (pySplit u "skipToken").length = 1 then .resp 200 page4a else .resp 200 page4b

def cursor7 : String := "https://api.qualtrics.com/API/v3/logs?skipToken=c7"

/-- Server for C7: first page hands out a cursor, the cursor page is
terminal. -/
def http7 : String → HttpResp := fun u =>
  if (pySplit u "skipToken").length = 1 then .resp 200 ⟨[], some cursor7⟩
  else .resp 200 ⟨[], none⟩

def enc7 : String := urlencode (buildParams "logins" dtS dtE)

def fOf (o : Option FetchOut) : FetchOut := o.getD ⟨[], .ok [], none⟩

def rOf (o : Option RunResult) : RunResult := o.getD ⟨[], none, [], [], [], [], true⟩

def evOf (o : Option Event) : Event := o.getD ⟨0, "", "", ""⟩

def dtF : DateTime := ⟨2024, 1, 1, 0, 0, 0, 123456⟩

def badRec : Rec := ⟨"not-a-timestamp", Json.null⟩

def goodRec : Rec := ⟨"2024-06-05T01:02:03.000004Z", Json.null⟩

/-- Environment for C1: one activity type whose only record has an
unparsable timestamp, so the emit phase raises. -/
def envC1 : InputEnv :=
  ⟨"scheme://inp1", "acct", .ok ⟨"key123", "api"⟩, "logins",
   fun _ => .ok none, fun _ => .resp 200 ⟨[badRec], none⟩, fun _ => dtClk, 0⟩

/-- Environment for C2: three activity types; the HTTP client raises for
the `users` fetch and serves one good record otherwise. -/
def httpC2 : String → HttpResp := fun u =>
  if (pySplit u "users").length = 1 then .resp 200 ⟨[goodRec], none⟩ else .raise

def envC2 : InputEnv :=
  ⟨"inp2", "acct", .ok ⟨"key", "api"⟩, "logins,users,brands",
   fun _ => .ok none, httpC2, fun _ => dtClk, 0⟩

def clockC6 : Nat → DateTime := fun i => ⟨2024, 6, 10, 0, 0, 0, i⟩

def storeC6 : String → Except Unit (Option CkptData) :=
  fun _ => .ok (some [("last_end_date", "2024-06-01T00:00:00")])

def envC6 : InputEnv :=
  ⟨"inp6", "acct", .ok ⟨"k", "api"⟩, "logins", storeC6,
   fun _ => .resp 200 ⟨[goodRec], none⟩, clockC6, 0⟩

def storeC5a : String → Except Unit (Option CkptData) := fun _ => .ok none

def storeC5b : String → Except Unit (Option CkptData) :=
  fun _ => .ok (some [("last_end_date", "garbage")])

def storeC5c : String → Except Unit (Option CkptData) :=
  fun _ => .ok (some [("last_end_date", "2024-06-05T01:02:03.000004")])

def clockC5 : Nat → DateTime := fun _ => dtClk

def recC9 : Rec := ⟨"2024-06-05T01:02:03.000004Z", Json.obj []⟩

def dW : DateTime := ⟨2025, 12, 31, 23, 59, 59, 999999⟩

def uW : DateTime := ⟨2026, 1, 1, 0, 0, 1, 5⟩

/-- C1 counterexample: a run in which the emit phase raised (the single
activity type is logged as failed and contributes no events) and yet the
checkpoint WAS committed — the per-activity `except` catches the emission
failure before the per-input catch-all, refuting the claim that a fetch or
emit exception leaves the checkpoint unchanged. -/
theorem C1_counterexample :
    (stream_events_input envC1 2).map
      (fun r => (r.activityFailures, r.saved.isSome, r.events)) =
      some (["logins"], true, []) := rfl

/-- C1 witness: the amended theorem applied to the concrete failing run. -/
theorem C1_witness :
    (stream_events_input envC1 2 = some (rOf (stream_events_input envC1 2))) ∧
    (rOf (stream_events_input envC1 2)).saved.isSome = true :=
  ⟨rfl, (C1_fetch_emit_failures_do_not_block_commit envC1 2
    (rOf (stream_events_input envC1 2)) rfl).1 ⟨"key123", "api"⟩ rfl⟩

/-- C2 witness: the spec's three-activity-type scenario — the second
activity type's HTTP call fails, activity types 1 and 3 are fully
processed (one event each), the failure is logged, and the checkpoint
still advances. -/
theorem C2_witness :
    (stream_events_input envC2 2 = some (rOf (stream_events_input envC2 2))) ∧
    ((rOf (stream_events_input envC2 2)).saved.isSome = true ∧
     (rOf (stream_events_input envC2 2)).events =
       ((runAts envC2).map (activityEvents envC2.http 2 envC2.tzOffMin "api"
         (runStart envC2) (runEnd envC2))).flatten ∧
     (rOf (stream_events_input envC2 2)).activityFailures =
       (runAts envC2).filter (activityFailed envC2.http 2 envC2.tzOffMin "api"
         (runStart envC2) (runEnd envC2)) ∧
     (rOf (stream_events_input envC2 2)).fetchCalls =
       (runAts envC2).map (fun a => (a, runStart envC2, runEnd envC2))) ∧
    (rOf (stream_events_input envC2 2)).activityFailures = ["users"] ∧
    (rOf (stream_events_input envC2 2)).events.length = 2 :=
  ⟨rfl, C2_activity_types_isolated_and_checkpoint_commits envC2 ⟨"key", "api"⟩ 2
    (rOf (stream_events_input envC2 2)) rfl rfl, rfl, rfl⟩

/-- C3 witness: a non-200 on page 2 yields exactly page 1's records, a
logged 500, and a normal (non-raising) return. -/
theorem C3_witness :
    get_data_from_api_for_activity_type http3 2 "api" "logins" dtS dtE =
      some ⟨chainReqs (urlencode (buildParams "logins" dtS dtE))
              (some (firstUrl "api" "logins" dtS dtE)) [page3a] ++
              [mergeParams cursor3 (urlencode (buildParams "logins" dtS dtE))],
            .ok (([page3a].map ApiResult.elements).flatten), some 500⟩ ∧
    ([page3a].map ApiResult.elements).flatten = [rec3] :=
  ⟨C3_non200_stops_returns_partial_logs_no_raise http3 2 "api" "logins" dtS dtE
    [page3a] cursor3 500 ⟨[], none⟩
    ⟨by decide, rfl, rfl⟩ (by decide) rfl (by decide) (by decide), rfl⟩

/-- C4 witness: the spec's scenario — two successful pages of 1000 and 350
elements with no further cursor give exactly 1350 records. -/
theorem C4_witness :
    (get_data_from_api_for_activity_type http4 2 "api" "logins" dtS dtE =
      some ⟨chainReqs (urlencode (buildParams "logins" dtS dtE))
              (some (firstUrl "api" "logins" dtS dtE)) [page4a, page4b],
            .ok (([page4a, page4b].map ApiResult.elements).flatten), none⟩ ∧
     (([page4a, page4b].map ApiResult.elements).flatten).length =
       ([page4a, page4b].map (fun b => b.elements.length)).sum) ∧
    ([page4a, page4b].map (fun b => b.elements.length)).sum = 1350 :=
  ⟨C4_pagination_terminates_and_concatenates http4 2 "api" "logins" dtS dtE
    [page4a, page4b] ⟨by decide, rfl, by decide, rfl, rfl⟩ (by decide), by decide⟩

/-- C5 witness: the fallback paths (absent checkpoint, unparsable value)
both return `utcnow() - 90 days` — concretely `2024-01-01T05:00:00` for a
clock at `2024-03-31T05:00:00` — and a parsable stored value is returned
as-is. -/
theorem C5_witness :
    get_last_end_date storeC5a clockC5 0 "k" = (subDays (clockC5 0) 90, 1) ∧
    get_last_end_date storeC5b clockC5 0 "k" = (subDays (clockC5 0) 90, 1) ∧
    get_last_end_date storeC5c clockC5 0 "k" = (⟨2024, 6, 5, 1, 2, 3, 4⟩, 0) ∧
    subDays (clockC5 0) 90 = ⟨2024, 1, 1, 5, 0, 0, 0⟩ :=
  ⟨(C5_window_start_fallback_or_stored storeC5a clockC5 0 "k").2.1 rfl,
   (C5_window_start_fallback_or_stored storeC5b clockC5 0 "k").2.2.2.1
     [("last_end_date", "garbage")] "garbage" rfl rfl rfl,
   (C5_window_start_fallback_or_stored storeC5c clockC5 0 "k").2.2.2.2
     [("last_end_date", "2024-06-05T01:02:03.000004")] "2024-06-05T01:02:03.000004"
     ⟨2024, 6, 5, 1, 2, 3, 4⟩ none rfl rfl rfl,
   by decide⟩

/-- C6 witness: with a parsable checkpoint the end is clock sample 0, every
fetch call receives it, the committed `last_end_date` is its isoformat,
and `updated_at` is the (different) next sample. -/
theorem C6_witness :
    (stream_events_input envC6 2 = some (rOf (stream_events_input envC6 2))) ∧
    ((rOf (stream_events_input envC6 2)).saved = some (runKey envC6,
       save_checkpoint_data (runEnd envC6) (envC6.clock (runEndIdx envC6 + 1))) ∧
     runEnd envC6 = envC6.clock (runEndIdx envC6) ∧
     (∀ c ∈ (rOf (stream_events_input envC6 2)).fetchCalls, c.2.2 = runEnd envC6)) ∧
    runEnd envC6 = ⟨2024, 6, 10, 0, 0, 0, 0⟩ ∧
    envC6.clock (runEndIdx envC6 + 1) = ⟨2024, 6, 10, 0, 0, 0, 1⟩ ∧
    runEnd envC6 ≠ envC6.clock (runEndIdx envC6 + 1) :=
  ⟨rfl, C6_end_captured_once_and_committed envC6 ⟨"k", "api"⟩ 2
    (rOf (stream_events_input envC6 2)) rfl rfl, rfl, rfl, by decide⟩

/-- C7 counterexample: a full fetch whose second request is NOT the
`nextPage` cursor verbatim — the original query parameters are appended to
it, refuting the claim as stated. -/
theorem C7_counterexample :
    (get_data_from_api_for_activity_type http7 3 "api" "logins" dtS dtE).map
      (fun o => o.reqs.drop 1) =
      some [cursor7 ++ "&" ++ urlencode (buildParams "logins" dtS dtE)] ∧
    cursor7 ++ "&" ++ urlencode (buildParams "logins" dtS dtE) ≠ cursor7 :=
  ⟨rfl, by decide⟩

/-- C7 witness: the amended theorem applied at the cursor page. -/
theorem C7_witness :
    (fetchLoop http7 enc7 1 (some cursor7) [] [] =
      some (fOf (fetchLoop http7 enc7 1 (some cursor7) [] []))) ∧
    ((∃ tl, (fOf (fetchLoop http7 enc7 1 (some cursor7) [] [])).reqs =
        [] ++ [mergeParams cursor7 enc7] ++ tl) ∧
      mergeParams cursor7 enc7 ≠ cursor7) :=
  ⟨rfl, C7_cursor_requests_carry_params_again http7 enc7 0 cursor7 [] []
    (fOf (fetchLoop http7 enc7 1 (some cursor7) [] [])) (by decide) (by decide) rfl⟩

/-- C8 counterexample: a datetime with microsecond `123456` renders with
six fractional digits, not the three of millisecond precision. -/
theorem C8_counterexample :
    strftimeZ dtF = "2024-01-01T00:00:00.123456Z" ∧
    fracDigitCount (strftimeZ dtF) = 6 ∧ (6 : Nat) ≠ 3 :=
  ⟨by decide, fracDigitCount_strftimeZ dtF, by decide⟩

/-- C8 witness: the amended theorem applied to a concrete fetch. -/
theorem C8_witness :
    (get_data_from_api_for_activity_type http7 3 "api" "logins" dtS dtE =
      some (fOf (get_data_from_api_for_activity_type http7 3 "api" "logins" dtS dtE))) ∧
    ((fOf (get_data_from_api_for_activity_type http7 3 "api" "logins" dtS dtE)).reqs.head?
        = some (mergeParams (firstUrl "api" "logins" dtS dtE)
            (urlencode (buildParams "logins" dtS dtE))) ∧
     buildParams "logins" dtS dtE =
       [("activityType", "logins"), ("pageSize", "1000"),
        ("startDate", strftimeZ dtS), ("endDate", strftimeZ dtE)] ∧
     fracDigitCount (strftimeZ dtS) = 6 ∧ (strftimeZ dtS).data.getLast? = some 'Z' ∧
     fracDigitCount (strftimeZ dtE) = 6 ∧ (strftimeZ dtE).data.getLast? = some 'Z') :=
  ⟨rfl, C8_first_request_params_microsecond_Z http7 2 "api" "logins" dtS dtE
    (fOf (get_data_from_api_for_activity_type http7 3 "api" "logins" dtS dtE)) rfl⟩

/-- C9 counterexample: a concrete record's emitted sourcetype is
`qualtrics:audit:logins`, not the `audit:logins` of the claim. -/
theorem C9_counterexample :
    (mkEvent 0 "api" "logins" recC9).map Event.sourcetype =
      some "qualtrics:audit:logins" ∧
    ("qualtrics:audit:logins" : String) ≠ "audit:logins" :=
  ⟨rfl, by decide⟩

/-- C9 witness: the amended event-shape theorem at a concrete record. -/
theorem C9_witness :
    (mkEvent 0 "api" "logins" recC9 = some (evOf (mkEvent 0 "api" "logins" recC9))) ∧
    (evOf (mkEvent 0 "api" "logins" recC9)).data = jsonDumps recC9.descriptor ∧
    (evOf (mkEvent 0 "api" "logins" recC9)).sourcetype = "qualtrics:audit:" ++ "logins" ∧
    (evOf (mkEvent 0 "api" "logins" recC9)).source = "api" ++ ".qualtrics.com/API/v3/logs" ∧
    (evOf (mkEvent 0 "api" "logins" recC9)).time =
      posixTimestampMicro ⟨2024, 6, 5, 1, 2, 3, 4⟩ ((some (0 : Int)).getD 0) :=
  ⟨rfl,
   ((C9_event_shape 0 "api" "logins").2 recC9 (evOf (mkEvent 0 "api" "logins" recC9)) rfl).1,
   ((C9_event_shape 0 "api" "logins").2 recC9 (evOf (mkEvent 0 "api" "logins" recC9)) rfl).2.1,
   ((C9_event_shape 0 "api" "logins").2 recC9 (evOf (mkEvent 0 "api" "logins" recC9)) rfl).2.2.1,
   ((C9_event_shape 0 "api" "logins").2 recC9 (evOf (mkEvent 0 "api" "logins" recC9)) rfl).2.2.2
     ⟨2024, 6, 5, 1, 2, 3, 4⟩ (some 0) rfl⟩

/-- C10 witness: the save/read round trip at a concrete datetime. -/
theorem C10_witness :
    ValidDT dW = true ∧
    (get_last_end_date
      (fun k => if k = "inp_acct_last_end_date"
        then .ok (some (save_checkpoint_data dW uW)) else .ok none)
      (fun _ => dtClk) 0 "inp_acct_last_end_date").1 = dW :=
  ⟨by decide, C10_checkpoint_roundtrip dW uW "inp_acct_last_end_date"
    (fun _ => dtClk) (by decide)⟩

end QualtricsAudit
